import Mathlib

/-!
# B+Tree node codec: a shallow embedding

This file embeds the node-codec layer of a Go B+Tree key-value store
(package `index`) and proves or refutes the specified properties of its
node layout, accessors, and insert entry point.

The Go code operates over a byte slice `node.data []byte` with `uint16`
positions. We model a node as a length together with a byte-valued
function; every accessor returns `Option` — `none` models a Go panic,
whether from a failed `assert` or from an out-of-range slice expression.
All position arithmetic is carried out modulo 2^16, matching Go's
`uint16` wraparound.
-/

namespace Index

/-- Truncation to Go's `uint16`: every position computation in the codec
is performed on 16-bit unsigned integers. -/
def u16 (n : Nat) : Nat := n % 65536

/-- Internal node kind tag (first constant of the source `iota` block). -/
def BNode_Node : Nat := 0

/-- Leaf node kind tag (second constant of the source `iota` block). -/
def BNode_Leaf : Nat := 1

/-- Header size in bytes. -/
def Header : Nat := 4

/-- Fixed page size. -/
def BTreePageSize : Nat := 4096

/-- Maximum key length accepted by the tree. -/
def BTreeMaxKeySize : Nat := 1000

/-- Maximum value length accepted by the tree. -/
def BTreeMaxValSize : Nat := 3000

/-- A node buffer: `len` is the length of the Go byte slice `node.data`,
and `data j` is the byte stored at position `j` (meaningful for `j < len`). -/
structure BNode where
  len : Nat
  data : Nat → Nat

/-- Go slice expression `node.data[a:b]` as a list of bytes: defined when
`a ≤ b ≤ len`, otherwise a panic (`none`). -/
def goSlice (node : BNode) (a b : Nat) : Option (List Nat) :=
  if a ≤ b ∧ b ≤ node.len then
    some ((List.range (b - a)).map (fun j => node.data (a + j)))
  else none

/-- `binary.LittleEndian.Uint16(node.data[pos : pos+2])`: the slice bounds
are computed in `uint16`; a failed bound is a Go panic. -/
def readU16 (node : BNode) (pos : Nat) : Option Nat :=
  if pos ≤ u16 (pos + 2) ∧ u16 (pos + 2) ≤ node.len then
    some (node.data pos + 256 * node.data (pos + 1))
  else none

/-- `binary.LittleEndian.PutUint16(node.data[pos : pos+2], v)`: writes the
low byte at `pos` and the high byte at `pos+1`, leaving all other
positions unchanged. -/
def writeU16 (node : BNode) (pos v : Nat) : Option BNode :=
  if pos ≤ u16 (pos + 2) ∧ u16 (pos + 2) ≤ node.len then
    let f : Nat → Nat := fun j =>
      if j = pos then v % 256
      else if j = pos + 1 then v / 256 % 256
      else node.data j
    some { node with data := f }
  else none

/-- `binary.LittleEndian.Uint64(node.data[pos : pos+8])`. -/
def readU64 (node : BNode) (pos : Nat) : Option Nat :=
  if pos ≤ u16 (pos + 8) ∧ u16 (pos + 8) ≤ node.len then
    some (node.data pos
      + 256 * node.data (pos + 1)
      + 256 ^ 2 * node.data (pos + 2)
      + 256 ^ 3 * node.data (pos + 3)
      + 256 ^ 4 * node.data (pos + 4)
      + 256 ^ 5 * node.data (pos + 5)
      + 256 ^ 6 * node.data (pos + 6)
      + 256 ^ 7 * node.data (pos + 7))
  else none

/-- `binary.LittleEndian.PutUint64(node.data[pos : pos+8], v)`. -/
def writeU64 (node : BNode) (pos v : Nat) : Option BNode :=
  if pos ≤ u16 (pos + 8) ∧ u16 (pos + 8) ≤ node.len then
    let f : Nat → Nat := fun j =>
      if j = pos then v % 256
      else if j = pos + 1 then v / 256 % 256
      else if j = pos + 2 then v / 256 ^ 2 % 256
      else if j = pos + 3 then v / 256 ^ 3 % 256
      else if j = pos + 4 then v / 256 ^ 4 % 256
      else if j = pos + 5 then v / 256 ^ 5 % 256
      else if j = pos + 6 then v / 256 ^ 6 % 256
      else if j = pos + 7 then v / 256 ^ 7 % 256
      else node.data j
    some { node with data := f }
  else none

/-- `func (node *BNode) bType() uint16`: the kind tag at bytes 0-1. -/
def bType (node : BNode) : Option Nat := readU16 node 0

/-- `func (node *BNode) numKeys() uint16`: the key count at bytes 2-3. -/
def numKeys (node : BNode) : Option Nat := readU16 node 2

/-- `func (node *BNode) setHeader(bType uint16, numKeys uint16)`. -/
def setHeader (node : BNode) (t n : Nat) : Option BNode := do
  let n1 ← writeU16 node 0 t
  writeU16 n1 2 n

/-- `func (node *BNode) getPtr(i uint16) uint64`: reads 8 bytes at
`Header + i*8` with NO index check of any kind. -/
def getPtr (node : BNode) (i : Nat) : Option Nat :=
  readU64 node (u16 (Header + i * 8))

/-- `func (node *BNode) setPtr(i uint16, ptr uint64)`: writes 8 bytes at
`Header + i*8` with NO index check of any kind. -/
def setPtr (node : BNode) (i ptr : Nat) : Option BNode :=
  writeU64 node (u16 (Header + i * 8)) ptr

/-- `func offsetPos(node *BNode, idx uint16) uint16`: checks
`1 <= idx && idx <= node.numKeys()` (panicking otherwise) and returns
`Header + node.numKeys()*8 + (idx-1)*2`. -/
def offsetPos (node : BNode) (idx : Nat) : Option Nat := do
  let n ← numKeys node
  if 1 ≤ idx ∧ idx ≤ n then
    some (u16 (Header + n * 8 + (idx - 1) * 2))
  else none

/-- `func (node *BNode) getOffset(idx uint16) uint16`. Note: the source
has no special case for `idx = 0`; `offsetPos` requires `1 <= idx`, so
`getOffset(node, 0)` panics. -/
def getOffset (node : BNode) (idx : Nat) : Option Nat := do
  let pos ← offsetPos node idx
  readU16 node pos

/-- `func (node *BNode) setOffset(idx uint16, offset uint16)`. -/
def setOffset (node : BNode) (idx off : Nat) : Option BNode := do
  let pos ← offsetPos node idx
  writeU16 node pos off

/-- `func (node *BNode) kvPos(idx uint16) uint16`: checks
`idx <= node.numKeys()` (panicking otherwise) and returns
`Header + 8*numKeys + 2*numKeys + getOffset(idx)`. -/
def kvPos (node : BNode) (idx : Nat) : Option Nat := do
  let n ← numKeys node
  if idx ≤ n then do
    let off ← getOffset node idx
    some (u16 (Header + 8 * n + 2 * n + off))
  else none

/-- `func (node *BNode) getKey(idx uint16) []byte`: checks
`idx <= numKeys`, then returns `node.data[pos+4 : pos+4+klen]` where
`klen` is the 2-byte field at `kvPos(idx)`. -/
def getKey (node : BNode) (idx : Nat) : Option (List Nat) := do
  let n ← numKeys node
  if idx ≤ n then do
    let pos ← kvPos node idx
    let klen ← readU16 node pos
    goSlice node (u16 (pos + 4)) (u16 (pos + 4 + klen))
  else none

/-- `func (node *BNode) getVal(idx uint16) []byte`: checks
`idx <= numKeys`, reads `klen` and `vlen`, and returns
`node.data[pos+4+klen : pos+4+klen+vlen]`. -/
def getVal (node : BNode) (idx : Nat) : Option (List Nat) := do
  let n ← numKeys node
  if idx ≤ n then do
    let pos ← kvPos node idx
    let klen ← readU16 node pos
    let vlen ← readU16 node (u16 (pos + 2))
    goSlice node (u16 (pos + 4 + klen)) (u16 (pos + 4 + klen + vlen))
  else none

/-- `func (node *BNode) numBytes() uint16`: the node's encoded size,
`kvPos(numKeys())`. -/
def numBytes (node : BNode) : Option Nat := do
  let n ← numKeys node
  kvPos node n

/-- `type BTree struct`: the root page number plus the three Page Store
callbacks, mirroring the source struct. -/
structure BTree where
  root : Nat
  get : Nat → BNode
  new : BNode → Nat
  del : Nat → Unit

/-- A fresh all-zero buffer of the given length. -/
def zeroNode (len : Nat) : BNode := ⟨len, fun _ => 0⟩

/-- Modelled from the spec: the Node Builder's byte-copy into a buffer
(`copy(node.data[pos:], bs)`) is not under `src/`; only the codec is.
Writes the bytes of `bs` at positions `pos, pos+1, ...`, leaving every
other position unchanged; fails if the bytes do not fit in the buffer. -/
def writeBytes (node : BNode) (pos : Nat) (bs : List Nat) : Option BNode :=
  if pos + bs.length ≤ node.len then
    let f : Nat → Nat := fun j =>
      if pos ≤ j ∧ j < pos + bs.length then bs.getD (j - pos) 0 % 256
      else node.data j
    some { node with data := f }
  else none

/-- Modelled from the spec: the Node Builder's record writer is not under
`src/`. Writes one length-prefixed record in the format documented in the
source (`klen 2B | vlen 2B | key | val`) at position `pos`. -/
def writeRecord (node : BNode) (pos : Nat) (key val : List Nat) : Option BNode := do
  let a ← writeU16 node pos key.length
  let b ← writeU16 a (pos + 2) val.length
  let c ← writeBytes b (pos + 4) key
  writeBytes c (pos + 4 + key.length) val

/-- A node assembled through the codec's own setters: a leaf with one
record, key byte 97 and value byte 49. The header is written with
`setHeader`, the single child pointer with `setPtr`, the entry-end
offset `6 = 4 + 1 + 1` with `setOffset`, and the record at its
documented position `Header + 8*1 + 2*1 = 14`. -/
def builtLeaf : Option BNode := do
  let a ← setHeader (zeroNode 4096) BNode_Leaf 1
  let b ← setPtr a 0 0
  let c ← setOffset b 1 6
  writeRecord c (Header + 8 * 1 + 2 * 1) [97] [49]

/-- An empty leaf node: kind 1, key count 0, in a 4096-byte page. -/
def emptyLeaf : BNode :=
  ⟨4096, fun j => if j = 0 then 1 else 0⟩

/-- A leaf with two one-byte records, bytes (97, 49) and (98, 50), laid
out per the documented format: header, 2 pointer slots (zero), entry-end
offsets 6 and 12 at positions 20 and 22, record 0 at 24, record 1 at 30. -/
def smallTwoNode : BNode :=
  ⟨4096, fun j =>
    if j = 0 then 1
    else if j = 2 then 2
    else if j = 20 then 6
    else if j = 22 then 12
    else if j = 24 then 1
    else if j = 26 then 1
    else if j = 28 then 97
    else if j = 29 then 49
    else if j = 30 then 1
    else if j = 32 then 1
    else if j = 34 then 98
    else if j = 35 then 50
    else 0⟩

/-- A leaf with a single maximum-size record: key of 1000 bytes (97),
value of 3000 bytes (98). The offset slot at 12 holds
`4004 = 4 + 1000 + 3000` (little-endian 164, 15); the record's length
fields 1000 (bytes 232, 3) and 3000 (bytes 184, 11) sit at 14 and 16. -/
def oneMaxNode : BNode :=
  ⟨4096, fun j =>
    if j = 0 then 1
    else if j = 2 then 1
    else if j = 12 then 164
    else if j = 13 then 15
    else if j = 14 then 232
    else if j = 15 then 3
    else if j = 16 then 184
    else if j = 17 then 11
    else if 18 ≤ j ∧ j < 1018 then 97
    else if 1018 ≤ j ∧ j < 4018 then 98
    else 0⟩

/-- A node holding two maximum-size records, in an oversized 8192-byte
scratch buffer (such a node cannot fit in a 4096-byte page). Entry-end
offsets: `4004` at 20 and `8008 = 2 * 4004` at 22; record 0 at 24,
record 1 at 4028; both records have length fields 1000 and 3000, with
key/value bytes 97/98 and 99/100. -/
def twoMaxNode : BNode :=
  ⟨8192, fun j =>
    if j = 0 then 1
    else if j = 2 then 2
    else if j = 20 then 164
    else if j = 21 then 15
    else if j = 22 then 72
    else if j = 23 then 31
    else if j = 24 then 232
    else if j = 25 then 3
    else if j = 26 then 184
    else if j = 27 then 11
    else if 28 ≤ j ∧ j < 1028 then 97
    else if 1028 ≤ j ∧ j < 4028 then 98
    else if j = 4028 then 232
    else if j = 4029 then 3
    else if j = 4030 then 184
    else if j = 4031 then 11
    else if 4032 ≤ j ∧ j < 5032 then 99
    else if 5032 ≤ j ∧ j < 8032 then 100
    else 0⟩

/-- An operation issued against the Page Store boundary
(`get`/`new`/`del`), used to record which boundary calls a tree
operation performs. -/
inductive StoreOp where
  | get : Nat → StoreOp
  | new : BNode → StoreOp
  | del : Nat → StoreOp

/-- The recoverable failure Insert reports to its caller. -/
inductive InsertError where
  | keyOrValTooLarge
deriving DecidableEq

/-- The tree state observable across a top-level operation: the root
page number plus the contents of all live pages. -/
structure TreeState where
  root : Nat
  pages : Nat → Option BNode

/-- Modelled from the spec: the Tree Mutator's `Insert` entry point is
not under `src/` (only the `BTree` struct with its Page Store callbacks
is). Per the spec, `Insert(key, value)` fails immediately — before any
Page Store call and with no tree mutation — if `len(key) > 1000` or
`len(value) > 3000`; the subsequent descent is abstracted as the
`descend` parameter. The result is the reported error (if any), the
resulting tree state, and the list of Page Store calls performed. -/
def Insert
    (descend : TreeState → List Nat → List Nat → Option InsertError × TreeState × List StoreOp)
    (t : TreeState) (key val : List Nat) :
    Option InsertError × TreeState × List StoreOp :=
  if BTreeMaxKeySize < key.length ∨ BTreeMaxValSize < val.length then
    (some InsertError.keyOrValTooLarge, t, [])
  else descend t key val

/-- Trivial descent continuation, used to instantiate `Insert`. -/
def noDescend : TreeState → List Nat → List Nat → Option InsertError × TreeState × List StoreOp :=
  fun t _ _ => (none, t, [])

/-- The empty tree: root pointer 0, no live pages. -/
def emptyTree : TreeState := ⟨0, fun _ => none⟩

/-- A 1001-byte key, one byte over the maximum. -/
def longKey : List Nat := List.replicate 1001 97

theorem u16_eq_of_lt {n : Nat} (h : n < 65536) : u16 n = n := Nat.mod_eq_of_lt h

theorem readU16_eq (node : BNode) (pos : Nat) (h1 : pos + 2 ≤ node.len)
    (h2 : pos + 2 < 65536) :
    readU16 node pos = some (node.data pos + 256 * node.data (pos + 1)) := by
  unfold readU16
  rw [u16_eq_of_lt h2, if_pos ⟨by omega, h1⟩]

theorem writeU16_eq (node : BNode) (pos v : Nat) (h1 : pos + 2 ≤ node.len)
    (h2 : pos + 2 < 65536) :
    writeU16 node pos v = some ⟨node.len, fun j =>
      if j = pos then v % 256
      else if j = pos + 1 then v / 256 % 256
      else node.data j⟩ := by
  unfold writeU16
  rw [u16_eq_of_lt h2, if_pos ⟨by omega, h1⟩]

/-- C1: the claim states that `recordPosition(node, i)` (`kvPos`) is
defined without a fatal failure for every `0 ≤ i ≤ keyCount`, with
`recordPosition(node, 0) = 4 + 10*keyCount` via the implicit entry-end 0.
The code violates this at `i = 0`: `kvPos` forwards the index to
`getOffset`, whose `offsetPos` check `1 <= idx` fails, so
`kvPos(node, 0)` panics on every node. Indices 1..keyCount do follow the
claimed formula: here `30 = 4 + 10*2 + 6` and `36 = 4 + 10*2 + 12`,
where 6 and 12 are the stored entry-end offsets of the records before
indices 1 and 2. -/
theorem kvPos_index_zero_fatal :
    numKeys smallTwoNode = some 2 ∧ kvPos smallTwoNode 0 = none ∧
    kvPos smallTwoNode 1 = some 30 ∧ kvPos smallTwoNode 2 = some 36 := by decide

/-- C2 counterexample: the claim states every index-taking codec accessor
fails fatally on an index beyond `keyCount`. It is false for `getPtr`
and `setPtr`, which perform no index check: on a node with key count 2,
reading child pointer 5 silently returns bytes of the buffer and writing
child pointer 5 silently succeeds. -/
theorem getPtr_unchecked_beyond_numKeys :
    numKeys smallTwoNode = some 2 ∧ getPtr smallTwoNode 5 = some 0 ∧
    (setPtr smallTwoNode 5 99).isSome = true := by decide

/-- C2 amended: of the index-taking accessors, `getOffset`, `setOffset`,
`kvPos`, `getKey`, and `getVal` do fail fatally (panic, modelled as
`none`) on every index beyond `keyCount`; `getPtr`/`setPtr` are excluded
because they perform no index check at all. -/
theorem index_beyond_numKeys_fatal (node : BNode) (n idx v : Nat)
    (hn : numKeys node = some n) (h : n < idx) :
    getOffset node idx = none ∧ setOffset node idx v = none ∧
    kvPos node idx = none ∧ getKey node idx = none ∧ getVal node idx = none := by
  have hno2 : ¬ (idx ≤ n) := by omega
  refine ⟨?_, ?_, ?_, ?_, ?_⟩ <;>
    simp [getOffset, setOffset, kvPos, getKey, getVal, offsetPos, hn, hno2]

/-- C2 amended, instantiated: on the concrete two-key node, index 3 is
rejected fatally by all five checked accessors. -/
theorem index_beyond_numKeys_fatal_inst :
    getOffset smallTwoNode 3 = none ∧ setOffset smallTwoNode 3 7 = none ∧
    kvPos smallTwoNode 3 = none ∧ getKey smallTwoNode 3 = none ∧
    getVal smallTwoNode 3 = none :=
  index_beyond_numKeys_fatal smallTwoNode 2 3 7 (by decide) (by decide)

/-- C3 counterexample: the claim states a node holding two maximum-size
records has encoded size at most 4096. False: with the declared
constants the layout costs `4 + 2*8 + 2*2 + 2*(4 + 1000 + 3000) = 8032`
bytes, and indeed `numBytes` of a node holding two maximum-size records
(length fields 1000 and 3000, consistent entry-end offsets 4004 and
8008) is 8032, which exceeds the page size. -/
theorem twoMaxNode_exceeds_pageSize :
    numKeys twoMaxNode = some 2 ∧
    readU16 twoMaxNode 24 = some BTreeMaxKeySize ∧
    readU16 twoMaxNode 26 = some BTreeMaxValSize ∧
    readU16 twoMaxNode 4028 = some BTreeMaxKeySize ∧
    readU16 twoMaxNode 4030 = some BTreeMaxValSize ∧
    getOffset twoMaxNode 1 = some 4004 ∧ getOffset twoMaxNode 2 = some 8008 ∧
    numBytes twoMaxNode = some 8032 ∧ BTreePageSize < 8032 := by decide

/-- C3 amended: with the fixed constants, a node holding ONE record of
maximum size has encoded size `4 + 8 + 2 + 4 + 1000 + 3000 = 4018 ≤ 4096`,
i.e. at least one maximum-size record always fits in one page (which is
what makes every oversized node splittable); two maximum-size records do
not fit. -/
theorem oneMaxNode_fits_pageSize :
    numKeys oneMaxNode = some 1 ∧
    readU16 oneMaxNode 14 = some BTreeMaxKeySize ∧
    readU16 oneMaxNode 16 = some BTreeMaxValSize ∧
    getOffset oneMaxNode 1 = some 4004 ∧
    numBytes oneMaxNode = some 4018 ∧ 4018 ≤ BTreePageSize := by decide

/-- C4: the claim states encode-then-decode is the identity on a node's
observable content. The code violates it at entry index 0: after
assembling a one-record leaf through `setHeader`, `setPtr`, `setOffset`,
and the record written at its documented position 14, the header, the
pointer, the offset, and the raw record bytes (97 at 18, 49 at 19) are
all read back correctly — but `getKey` and `getVal` at index 0 panic
(via `getOffset 0`) instead of returning the written key and value. -/
theorem builtLeaf_getKey_zero_fatal :
    builtLeaf.bind bType = some BNode_Leaf ∧
    builtLeaf.bind numKeys = some 1 ∧
    builtLeaf.bind (fun nd => getPtr nd 0) = some 0 ∧
    builtLeaf.bind (fun nd => getOffset nd 1) = some 6 ∧
    builtLeaf.bind (fun nd => readU16 nd 14) = some 1 ∧
    builtLeaf.bind (fun nd => readU16 nd 16) = some 1 ∧
    builtLeaf.bind (fun nd => goSlice nd 18 19) = some [97] ∧
    builtLeaf.bind (fun nd => goSlice nd 19 20) = some [49] ∧
    builtLeaf.bind (fun nd => getKey nd 0) = none ∧
    builtLeaf.bind (fun nd => getVal nd 0) = none := by decide

/-- C5: Insert with an oversize key or value fails immediately with the
oversize report, leaves the tree state (root pointer and all live pages)
unchanged, and performs no Page Store call, whatever the descent logic
would have done. -/
theorem Insert_oversize_preserves_state
    (descend : TreeState → List Nat → List Nat → Option InsertError × TreeState × List StoreOp)
    (t : TreeState) (key val : List Nat)
    (h : BTreeMaxKeySize < key.length ∨ BTreeMaxValSize < val.length) :
    Insert descend t key val = (some InsertError.keyOrValTooLarge, t, []) ∧
    (Insert descend t key val).2.1.root = t.root ∧
    (Insert descend t key val).2.1.pages = t.pages ∧
    (Insert descend t key val).2.2 = [] := by
  have he : Insert descend t key val = (some InsertError.keyOrValTooLarge, t, []) := by
    unfold Insert
    rw [if_pos h]
  exact ⟨he, by rw [he], by rw [he], by rw [he]⟩

/-- C5, instantiated: inserting a 1001-byte key into the empty tree
reports the oversize condition, keeps the state, and performs no Page
Store call. -/
theorem Insert_oversize_preserves_state_inst :
    Insert noDescend emptyTree longKey [] = (some InsertError.keyOrValTooLarge, emptyTree, []) ∧
    (Insert noDescend emptyTree longKey []).2.1.root = emptyTree.root ∧
    (Insert noDescend emptyTree longKey []).2.1.pages = emptyTree.pages ∧
    (Insert noDescend emptyTree longKey []).2.2 = [] :=
  Insert_oversize_preserves_state noDescend emptyTree longKey []
    (Or.inl (by simp only [longKey, List.length_replicate]; decide))

/-- C6: the claim states `encodedSize(node)` (`numBytes`) is defined
without a fatal failure for every key count, including 0, and equals
`recordPosition(node, keyCount)`. The code violates the first part at
`keyCount = 0`: `numBytes` is `kvPos(numKeys())`, and `kvPos(0)` panics
through `getOffset 0`, so `numBytes` of an empty node is a panic. For
`keyCount ≥ 1` the equation does hold, as on the two-key node where both
sides are 36. -/
theorem numBytes_empty_node_fatal :
    numKeys emptyLeaf = some 0 ∧ numBytes emptyLeaf = none ∧
    numBytes smallTwoNode = some 36 ∧ kvPos smallTwoNode 2 = some 36 := by decide

/-- C7: the node header is 4 bytes, little-endian: `setHeader` writes the
kind tag into bytes 0-1 (low byte first) and the key count into bytes
2-3, touching nothing else, and `bType`/`numKeys` read back exactly
those two 16-bit fields; the kind constants are 0 (internal) and 1
(leaf). -/
theorem setHeader_header_layout (node : BNode) (t n : Nat)
    (hlen : 4 ≤ node.len) (ht : t < 65536) (hn : n < 65536) :
    ∃ node', setHeader node t n = some node' ∧
      node'.len = node.len ∧
      node'.data 0 = t % 256 ∧ node'.data 1 = t / 256 ∧
      node'.data 2 = n % 256 ∧ node'.data 3 = n / 256 ∧
      (∀ j, 4 ≤ j → node'.data j = node.data j) ∧
      bType node' = some t ∧ numKeys node' = some n ∧
      BNode_Node = 0 ∧ BNode_Leaf = 1 := by
  have e1 := writeU16_eq node 0 t (by omega) (by omega)
  have hdt : t / 256 < 256 := Nat.div_lt_of_lt_mul (by omega)
  have hdn : n / 256 < 256 := Nat.div_lt_of_lt_mul (by omega)
  set n1 : BNode := ⟨node.len, fun j =>
      if j = 0 then t % 256
      else if j = 0 + 1 then t / 256 % 256
      else node.data j⟩ with hn1
  set n2 : BNode := ⟨n1.len, fun j =>
      if j = 2 then n % 256
      else if j = 2 + 1 then n / 256 % 256
      else n1.data j⟩ with hn2
  have e2 := writeU16_eq n1 2 n (by simp [hn1]; omega) (by omega)
  refine ⟨n2, ?_, ?_, ?_, ?_, ?_, ?_, ?_, ?_, ?_, rfl, rfl⟩
  · unfold setHeader
    rw [e1]
    simpa [hn2] using e2
  · simp [hn2, hn1]
  · simp [hn2, hn1]
  · simp [hn2, hn1, Nat.mod_eq_of_lt hdt]
  · simp [hn2, hn1]
  · simp [hn2, hn1, Nat.mod_eq_of_lt hdn]
  · intro j hj
    simp only [hn2, hn1]
    have j2 : j ≠ 2 := by omega
    have j3 : j ≠ 2 + 1 := by omega
    have j0 : j ≠ 0 := by omega
    have j1 : j ≠ 0 + 1 := by omega
    simp [j0, j1, j2, j3]
  · unfold bType
    rw [readU16_eq n2 0 (by simp [hn2, hn1]; omega) (by omega)]
    simp [hn2, hn1, Nat.mod_eq_of_lt hdt]
    omega
  · unfold numKeys
    rw [readU16_eq n2 2 (by simp [hn2, hn1]; omega) (by omega)]
    simp [hn2, hn1, Nat.mod_eq_of_lt hdn]
    omega

/-- C7, instantiated: writing kind 1 and key count 5 into a zeroed page
places the little-endian fields at bytes 0-3 and reads them back. -/
theorem setHeader_header_layout_inst :
    ∃ node', setHeader (zeroNode 4096) 1 5 = some node' ∧
      node'.len = (zeroNode 4096).len ∧
      node'.data 0 = 1 % 256 ∧ node'.data 1 = 1 / 256 ∧
      node'.data 2 = 5 % 256 ∧ node'.data 3 = 5 / 256 ∧
      (∀ j, 4 ≤ j → node'.data j = (zeroNode 4096).data j) ∧
      bType node' = some 1 ∧ numKeys node' = some 5 ∧
      BNode_Node = 0 ∧ BNode_Leaf = 1 :=
  setHeader_header_layout (zeroNode 4096) 1 5 (by decide) (by decide) (by decide)

/-- C8: the claim states `getKey`/`getVal` read the length-prefixed
record at `recordPosition(i)` for every `0 ≤ i < keyCount`. The code
violates it at `i = 0`: on a two-record leaf whose record-0 bytes are
present at their documented location (key byte 97 at 28, value byte 49
at 29), `getKey`/`getVal` at index 0 panic through `getOffset 0`, while
index 1 is read back correctly (key 98, value 50) per the record
format. -/
theorem getKey_record_zero_fatal :
    numKeys smallTwoNode = some 2 ∧
    getKey smallTwoNode 1 = some [98] ∧ getVal smallTwoNode 1 = some [50] ∧
    goSlice smallTwoNode 28 29 = some [97] ∧ goSlice smallTwoNode 29 30 = some [49] ∧
    getKey smallTwoNode 0 = none ∧ getVal smallTwoNode 0 = none := by decide

/-- C9: the stored entry-end slots are the `keyCount` 2-byte fields
immediately after the pointer array: for `1 ≤ i ≤ keyCount`, slot `i`
begins at byte `4 + 8*keyCount + 2*(i-1)`, and `getOffset`/`setOffset`
read and write the little-endian 16-bit value at exactly that position,
leaving every other byte unchanged. -/
theorem offset_slot_layout (node : BNode) (n i v : Nat)
    (hn : numKeys node = some n) (h1 : 1 ≤ i) (h2 : i ≤ n)
    (hfit : 4 + 8 * n + 2 * (i - 1) + 2 ≤ node.len)
    (hsz : 4 + 8 * n + 2 * (i - 1) + 2 < 65536) (hv : v < 65536) :
    offsetPos node i = some (4 + 8 * n + 2 * (i - 1)) ∧
    getOffset node i =
      some (node.data (4 + 8 * n + 2 * (i - 1))
        + 256 * node.data (4 + 8 * n + 2 * (i - 1) + 1)) ∧
    ∃ node', setOffset node i v = some node' ∧ node'.len = node.len ∧
      node'.data (4 + 8 * n + 2 * (i - 1)) = v % 256 ∧
      node'.data (4 + 8 * n + 2 * (i - 1) + 1) = v / 256 ∧
      ∀ j, j ≠ 4 + 8 * n + 2 * (i - 1) → j ≠ 4 + 8 * n + 2 * (i - 1) + 1 →
        node'.data j = node.data j := by
  have hdv : v / 256 < 256 := Nat.div_lt_of_lt_mul (by omega)
  have hp : offsetPos node i = some (4 + 8 * n + 2 * (i - 1)) := by
    unfold offsetPos
    rw [hn]
    simp only [Option.bind_eq_bind, Option.some_bind, if_pos (And.intro h1 h2)]
    congr 1
    unfold u16 Header
    omega
  refine ⟨hp, ?_, ?_⟩
  · unfold getOffset
    rw [hp]
    simp only [Option.bind_eq_bind, Option.some_bind]
    exact readU16_eq node _ hfit hsz
  · set n1 : BNode := ⟨node.len, fun j =>
        if j = 4 + 8 * n + 2 * (i - 1) then v % 256
        else if j = 4 + 8 * n + 2 * (i - 1) + 1 then v / 256 % 256
        else node.data j⟩ with hn1
    refine ⟨n1, ?_, rfl, ?_, ?_, ?_⟩
    · unfold setOffset
      rw [hp]
      simp only [Option.bind_eq_bind, Option.some_bind]
      rw [writeU16_eq node _ v hfit hsz]
    · simp [hn1]
    · simp [hn1, Nat.mod_eq_of_lt hdv]
    · intro j hj1 hj2
      simp [hn1, hj1, hj2]

/-- C9, instantiated: on the two-key node, slot 1 begins at byte 20
(`4 + 16 + 0`); its stored value 6 is read there, and writing 7 updates
exactly bytes 20-21. -/
theorem offset_slot_layout_inst :
    offsetPos smallTwoNode 1 = some (4 + 8 * 2 + 2 * (1 - 1)) ∧
    getOffset smallTwoNode 1 =
      some (smallTwoNode.data (4 + 8 * 2 + 2 * (1 - 1))
        + 256 * smallTwoNode.data (4 + 8 * 2 + 2 * (1 - 1) + 1)) ∧
    ∃ node', setOffset smallTwoNode 1 7 = some node' ∧ node'.len = smallTwoNode.len ∧
      node'.data (4 + 8 * 2 + 2 * (1 - 1)) = 7 % 256 ∧
      node'.data (4 + 8 * 2 + 2 * (1 - 1) + 1) = 7 / 256 ∧
      ∀ j, j ≠ 4 + 8 * 2 + 2 * (1 - 1) → j ≠ 4 + 8 * 2 + 2 * (1 - 1) + 1 →
        node'.data j = smallTwoNode.data j :=
  offset_slot_layout smallTwoNode 2 1 7 (by decide) (by decide) (by decide)
    (by decide) (by decide) (by decide)

/-- C10: every node with key count 1 holding a record whose key length is
at most 1000 and whose value length is at most 3000 (the record's length
fields sit at bytes 14 and 16, and the stored entry-end offset is the
record's size `4 + klen + vlen`) has encoded size
`4 + 8 + 2 + 4 + klen + vlen ≤ 4018 ≤ 4096`: a single maximum-size
record always fits in one page. -/
theorem single_max_record_fits (node : BNode) (klen vlen : Nat)
    (h1 : numKeys node = some 1)
    (_hk : readU16 node 14 = some klen) (_hv : readU16 node 16 = some vlen)
    (h4 : getOffset node 1 = some (4 + klen + vlen))
    (h5 : klen ≤ BTreeMaxKeySize) (h6 : vlen ≤ BTreeMaxValSize) :
    numBytes node = some (18 + klen + vlen) ∧ 18 + klen + vlen ≤ BTreePageSize := by
  have h5' : klen ≤ 1000 := h5
  have h6' : vlen ≤ 3000 := h6
  constructor
  · unfold numBytes kvPos
    rw [h1]
    simp only [Option.bind_eq_bind, Option.some_bind, if_pos (le_refl 1), h4]
    congr 1
    unfold u16 Header
    omega
  · show 18 + klen + vlen ≤ 4096
    omega

/-- C10, instantiated: the concrete node holding one maximum-size record
has encoded size `18 + 1000 + 3000 = 4018`, within the page. -/
theorem single_max_record_fits_inst :
    numBytes oneMaxNode = some (18 + 1000 + 3000) ∧ 18 + 1000 + 3000 ≤ BTreePageSize :=
  single_max_record_fits oneMaxNode 1000 3000 (by decide) (by decide) (by decide)
    (by decide) (by decide) (by decide)

end Index
